import Mathlib

/-!
Verification of the cashier-code verification flow of the smart-cart backend
(`src/server.js`): the handlers `POST /cash-intent`, `POST /verify-cashier-code`
and `POST /purchase`, shallowly embedded over an explicit document-store state.

The document store (MongoDB via Mongoose) is the external collaborator; its
operations are modelled per the contract the code relies on: each collection is
a list of documents in insertion ("natural") order, and `findOne`, `deleteOne`,
`updateOne` operate on the first matching document in that order, while
`findOneAndUpdate` with `upsert` replaces the first matching document (or
appends a fresh one) and `create` appends.  Each operation is individually
atomic; a handler parameter records whether a given store call throws, which
lands execution in the handler's `catch` block (HTTP 500).

Timestamps (`Date.now()`, `new Date()`) are naturals (milliseconds); the
current time is an explicit parameter of each handler.  `generateCashierCode()`
lives outside `src/` and is treated as a black box: the generated code is an
input of the `/cash-intent` handler.
-/

namespace SmartCart

/-- A JSON body value that is either a string or a number, used for the
`cashierCode` field of `/verify-cashier-code`, which the handler coerces with
`String(cashierCode)`. -/
inductive JVal where
  | jstr : String → JVal
  | jnum : Nat → JVal
deriving DecidableEq, Repr

/-- JavaScript truthiness of an optional string body field: `undefined`/absent
and the empty string are falsy. -/
def sTruthy : Option String → Bool
  | none => false
  | some s => decide (s ≠ "")

/-- JavaScript truthiness of an optional string-or-number body field:
absent, `""` and `0` are falsy. -/
def jTruthy : Option JVal → Bool
  | none => false
  | some (JVal.jstr s) => decide (s ≠ "")
  | some (JVal.jnum n) => decide (n ≠ 0)

/-- The JavaScript `String(x)` coercion on a string-or-number value. -/
def jToString : JVal → String
  | JVal.jstr s => s
  | JVal.jnum n => toString n

/-- A `CashIntent` document, with exactly the fields `POST /cash-intent`
writes: name, mobile, cashierCode, date (creation time) and expiresAt. -/
structure CashIntent where
  name : String
  mobile : String
  cashierCode : String
  date : Nat
  expiresAt : Nat
deriving DecidableEq, Repr

/-- A `CashierCodeHistory` document.  Modelled from the spec: the schema file
`models/CashierCodeHistory.js` is not under `src/`; per spec §3 a history
record carries the code, the mobile, a verified flag defaulting to `false`, a
verification timestamp set once, and a creation timestamp. -/
structure HistoryRow where
  cashierCode : String
  mobile : String
  verified : Bool
  verifiedAt : Option Nat
  createdAt : Nat
deriving DecidableEq, Repr

/-- A `Purchase` document, with the fields `POST /purchase` writes. -/
structure Purchase where
  name : String
  mobile : String
  products : List String
  paymentMethod : String
  cashierCode : Option String
deriving DecidableEq, Repr

/-- The document store: the three collections the verification flow touches,
each a list of documents in insertion order. -/
structure Store where
  intents : List CashIntent
  history : List HistoryRow
  purchases : List Purchase
deriving DecidableEq, Repr

/-- An HTTP response: status code, the `success` flag, the `message` field and
the `cashierCode` field of the JSON body (when present). -/
structure HttpResponse where
  status : Nat
  success : Bool
  message : Option String
  cashierCode : Option String
deriving DecidableEq, Repr

/-- `CashIntent.findOne({ mobile, cashierCode })`: first document matching both
fields, in store order. -/
def ciFindOne (mobile code : String) (l : List CashIntent) : Option CashIntent :=
  l.find? (fun i => decide (i.mobile = mobile ∧ i.cashierCode = code))

/-- `CashIntent.deleteOne({ mobile })`: remove the first document with this
mobile, if any. -/
def ciDeleteOne (mobile : String) : List CashIntent → List CashIntent
  | [] => []
  | i :: rest => if i.mobile = mobile then rest else i :: ciDeleteOne mobile rest

/-- `CashIntent.findOneAndUpdate({ mobile }, doc, { upsert: true })` where
`doc` sets every schema field: replace the first document with this mobile by
`doc`, or append `doc` when none matches. -/
def ciUpsert (mobile : String) (doc : CashIntent) : List CashIntent → List CashIntent
  | [] => [doc]
  | i :: rest => if i.mobile = mobile then doc :: rest else i :: ciUpsert mobile doc rest

/-- The filter `{ mobile, cashierCode, verified: false }` of the history
`updateOne` in the verify handler. -/
def histMatches (mobile code : String) (r : HistoryRow) : Prop :=
  r.mobile = mobile ∧ r.cashierCode = code ∧ r.verified = false

instance (mobile code : String) (r : HistoryRow) : Decidable (histMatches mobile code r) := by
  unfold histMatches
  infer_instance

/-- `CashierCodeHistory.updateOne(filter, { $set: { verified: true, verifiedAt } })`:
set the two fields on the first matching document in store order, if any. -/
def histUpdateOne (mobile code : String) (now : Nat) : List HistoryRow → List HistoryRow
  | [] => []
  | r :: rest =>
    if histMatches mobile code r then
      { r with verified := true, verifiedAt := some now } :: rest
    else
      r :: histUpdateOne mobile code now rest

/-- The `CashIntent` document the `/cash-intent` upsert writes: expiry is
creation time plus 15 minutes (in milliseconds). -/
def newIntent (name mobile code : String) (now : Nat) : CashIntent :=
  { name := name, mobile := mobile, cashierCode := code,
    date := now, expiresAt := now + 15 * 60 * 1000 }

/-- The `CashierCodeHistory` document `CashierCodeHistory.create({ cashierCode,
mobile })` appends; `verified` defaults to `false` and `verifiedAt` is unset
(defaults modelled from spec §3, the schema file being outside `src/`). -/
def newHistoryRow (code mobile : String) (now : Nat) : HistoryRow :=
  { cashierCode := code, mobile := mobile, verified := false,
    verifiedAt := none, createdAt := now }

/-- Handler of `POST /cash-intent` (`src/server.js` lines 139-161).
`generatedCode` is the value returned by the external `generateCashierCode()`;
`failUpsert` / `failCreate` say whether the respective store call throws.  The
handler's two clock reads (`new Date()` for `date`, `Date.now()` for
`expiresAt`) are modelled as observing the same instant `now`. -/
def postCashIntent (name mobile : Option String) (generatedCode : String) (now : Nat)
    (failUpsert failCreate : Bool) (s : Store) : HttpResponse × Store :=
  if !sTruthy name || !sTruthy mobile then
    ({ status := 400, success := false, message := some "Missing fields",
       cashierCode := none }, s)
  else if failUpsert then
    ({ status := 500, success := false, message := some "Error saving cash intent",
       cashierCode := none }, s)
  else if failCreate then
    ({ status := 500, success := false, message := some "Error saving cash intent",
       cashierCode := none },
     { s with intents := (ciUpsert (mobile.getD "")
         (newIntent (name.getD "") (mobile.getD "") generatedCode now) s.intents) })
  else
    ({ status := 200, success := true, message := none, cashierCode := some generatedCode },
     { s with
         intents := (ciUpsert (mobile.getD "")
           (newIntent (name.getD "") (mobile.getD "") generatedCode now) s.intents),
         history := s.history ++ [newHistoryRow generatedCode (mobile.getD "") now] })

/-- Handler of `POST /verify-cashier-code` (`src/server.js` lines 174-197).
The four flags say whether the `findOne`, the expired-branch `deleteOne`, the
success-branch `deleteOne`, and the history `updateOne` throw. -/
def postVerifyCashierCode (mobile : Option String) (cashierCode : Option JVal) (now : Nat)
    (failFind failDeleteExpired failDelete failHistUpdate : Bool) (s : Store) :
    HttpResponse × Store :=
  if !sTruthy mobile || !jTruthy cashierCode then
    ({ status := 400, success := false, message := some "Missing mobile or code",
       cashierCode := none }, s)
  else if failFind then
    ({ status := 500, success := false, message := some "❌ Server error",
       cashierCode := none }, s)
  else
    match ciFindOne (mobile.getD "") (jToString (cashierCode.getD (JVal.jstr ""))) s.intents with
    | none =>
        ({ status := 401, success := false, message := some "❌ Invalid code",
           cashierCode := none }, s)
    | some intent =>
        if now > intent.expiresAt then
          if failDeleteExpired then
            ({ status := 500, success := false, message := some "❌ Server error",
               cashierCode := none }, s)
          else
            ({ status := 401, success := false, message := some "❌ Code expired",
               cashierCode := none },
             { s with intents := ciDeleteOne (mobile.getD "") s.intents })
        else if failDelete then
          ({ status := 500, success := false, message := some "❌ Server error",
             cashierCode := none }, s)
        else if failHistUpdate then
          ({ status := 500, success := false, message := some "❌ Server error",
             cashierCode := none },
           { s with intents := ciDeleteOne (mobile.getD "") s.intents })
        else
          ({ status := 200, success := true, message := some "✅ Code verified",
             cashierCode := none },
           { s with
               intents := ciDeleteOne (mobile.getD "") s.intents,
               history := (histUpdateOne (mobile.getD "")
                 (jToString (cashierCode.getD (JVal.jstr ""))) now s.history) })

/-- Handler of `POST /purchase` (`src/server.js` lines 88-107).  `products` is
an array body field: only absence is falsy (an empty array is truthy in
JavaScript).  `failDelete` / `failSave` say whether `CashIntent.deleteOne` /
`purchase.save()` throw. -/
def postPurchase (name mobile : Option String) (products : Option (List String))
    (paymentMethod : Option String) (cashierCode : Option String)
    (failDelete failSave : Bool) (s : Store) : HttpResponse × Store :=
  if !sTruthy name || !sTruthy mobile || products.isNone || !sTruthy paymentMethod then
    ({ status := 400, success := false, message := some "Missing fields",
       cashierCode := none }, s)
  else if paymentMethod.getD "" = "cash" then
    if failDelete then
      ({ status := 500, success := false, message := some "Error saving purchase",
         cashierCode := none }, s)
    else if failSave then
      ({ status := 500, success := false, message := some "Error saving purchase",
         cashierCode := none },
       { s with intents := ciDeleteOne (mobile.getD "") s.intents })
    else
      ({ status := 200, success := true, message := some "Purchase saved",
         cashierCode := none },
       { s with
           intents := ciDeleteOne (mobile.getD "") s.intents,
           purchases := (s.purchases ++
             [{ name := name.getD "", mobile := mobile.getD "",
                products := products.getD [], paymentMethod := paymentMethod.getD "",
                cashierCode := cashierCode }]) })
  else if failSave then
    ({ status := 500, success := false, message := some "Error saving purchase",
       cashierCode := none }, s)
  else
    ({ status := 200, success := true, message := some "Purchase saved",
       cashierCode := none },
     { s with purchases := (s.purchases ++
         [{ name := name.getD "", mobile := mobile.getD "",
            products := products.getD [], paymentMethod := paymentMethod.getD "",
            cashierCode := none }]) })

/-- The spec's invariant "at most one live CashIntent per mobile": the mobiles
of the stored intents are pairwise distinct. -/
def IntentKeyUnique (l : List CashIntent) : Prop :=
  (l.map (fun i => i.mobile)).Nodup

instance (l : List CashIntent) : Decidable (IntentKeyUnique l) := by
  unfold IntentKeyUnique
  infer_instance

/-! Lemmas about the modelled store operations -/

theorem ciDeleteOne_sublist (m : String) (l : List CashIntent) :
    List.Sublist (ciDeleteOne m l) l := by
  induction l with
  | nil => simp [ciDeleteOne]
  | cons i rest ih =>
    unfold ciDeleteOne
    split
    · exact List.sublist_cons_self i rest
    · exact List.Sublist.cons₂ i ih

theorem intentKeyUnique_deleteOne (m : String) (l : List CashIntent)
    (h : IntentKeyUnique l) : IntentKeyUnique (ciDeleteOne m l) :=
  List.Nodup.sublist ((ciDeleteOne_sublist m l).map (fun i => i.mobile)) h

theorem ciDeleteOne_mobile_ne (m : String) (l : List CashIntent)
    (h : IntentKeyUnique l) : ∀ i ∈ ciDeleteOne m l, i.mobile ≠ m := by
  induction l with
  | nil => intro i hi; simp [ciDeleteOne] at hi
  | cons a rest ih =>
    rw [IntentKeyUnique, List.map_cons, List.nodup_cons] at h
    intro i hi
    unfold ciDeleteOne at hi
    split at hi
    · rename_i hm
      intro him
      exact h.1 (by rw [hm, ← him]; exact List.mem_map_of_mem _ hi)
    · rcases List.mem_cons.mp hi with rfl | hi'
      · rename_i hm; exact hm
      · exact ih h.2 i hi'

theorem ciDeleteOne_id_of_no_match (m : String) (l : List CashIntent)
    (h : ∀ i ∈ l, i.mobile ≠ m) : ciDeleteOne m l = l := by
  induction l with
  | nil => rfl
  | cons a rest ih =>
    unfold ciDeleteOne
    rw [if_neg (h a (List.mem_cons_self a rest))]
    rw [ih (fun i hi => h i (List.mem_cons_of_mem a hi))]

theorem ciUpsert_mem (m : String) (doc : CashIntent) (l : List CashIntent) :
    ∀ x ∈ ciUpsert m doc l, x = doc ∨ x ∈ l := by
  induction l with
  | nil =>
    intro x hx
    simp only [ciUpsert, List.mem_singleton] at hx
    exact Or.inl hx
  | cons a rest ih =>
    intro x hx
    unfold ciUpsert at hx
    split at hx
    · rcases List.mem_cons.mp hx with rfl | hx'
      · exact Or.inl rfl
      · exact Or.inr (List.mem_cons_of_mem a hx')
    · rcases List.mem_cons.mp hx with rfl | hx'
      · exact Or.inr (List.mem_cons_self _ _)
      · rcases ih x hx' with h | h
        · exact Or.inl h
        · exact Or.inr (List.mem_cons_of_mem a h)

theorem ciUpsert_self_mem (m : String) (doc : CashIntent) (l : List CashIntent) :
    doc ∈ ciUpsert m doc l := by
  induction l with
  | nil => simp [ciUpsert]
  | cons a rest ih =>
    unfold ciUpsert
    split
    · exact List.mem_cons_self _ _
    · exact List.mem_cons_of_mem a ih

theorem intentKeyUnique_upsert (m : String) (doc : CashIntent) (hdoc : doc.mobile = m)
    (l : List CashIntent) (h : IntentKeyUnique l) : IntentKeyUnique (ciUpsert m doc l) := by
  induction l with
  | nil => simp [ciUpsert, IntentKeyUnique]
  | cons a rest ih =>
    rw [IntentKeyUnique, List.map_cons, List.nodup_cons] at h
    unfold ciUpsert
    split
    · rename_i hm
      rw [IntentKeyUnique, List.map_cons, List.nodup_cons]
      exact ⟨by rw [hdoc, ← hm]; exact h.1, h.2⟩
    · rename_i hm
      rw [IntentKeyUnique, List.map_cons, List.nodup_cons]
      refine ⟨?_, ih h.2⟩
      intro hmem
      rcases List.mem_map.mp hmem with ⟨x, hx, hxm⟩
      rcases ciUpsert_mem m doc rest x hx with rfl | hx'
      · exact hm (by rw [← hxm, hdoc])
      · exact h.1 (hxm ▸ List.mem_map_of_mem _ hx')

theorem ciUpsert_countP (m : String) (doc : CashIntent) (hdoc : doc.mobile = m)
    (l : List CashIntent) (h : IntentKeyUnique l) :
    (ciUpsert m doc l).countP (fun i => decide (i.mobile = m)) = 1 := by
  induction l with
  | nil => simp [ciUpsert, List.countP_cons, hdoc]
  | cons a rest ih =>
    rw [IntentKeyUnique, List.map_cons, List.nodup_cons] at h
    unfold ciUpsert
    split
    · rename_i hm
      rw [List.countP_cons]
      have hzero : rest.countP (fun i => decide (i.mobile = m)) = 0 := by
        rw [List.countP_eq_zero]
        intro i hi
        simp only [decide_eq_true_eq]
        intro him
        exact h.1 (by rw [hm, ← him]; exact List.mem_map_of_mem _ hi)
      simp [hzero, hdoc]
    · rename_i hm
      rw [List.countP_cons]
      simp [hm, ih h.2]

theorem ciUpsert_mem_key (m : String) (doc : CashIntent) (hdoc : doc.mobile = m)
    (l : List CashIntent) (h : IntentKeyUnique l) :
    ∀ i ∈ ciUpsert m doc l, i.mobile = m → i = doc := by
  induction l with
  | nil =>
    intro i hi _
    simpa [ciUpsert] using hi
  | cons a rest ih =>
    rw [IntentKeyUnique, List.map_cons, List.nodup_cons] at h
    intro i hi him
    unfold ciUpsert at hi
    split at hi
    · rename_i hm
      rcases List.mem_cons.mp hi with rfl | hi'
      · rfl
      · exact absurd (by rw [hm, ← him]; exact List.mem_map_of_mem _ hi') h.1
    · rcases List.mem_cons.mp hi with rfl | hi'
      · rename_i hm; exact absurd him hm
      · exact ih h.2 i hi' him

theorem ciFindOne_some (m c : String) (l : List CashIntent) (i : CashIntent)
    (h : ciFindOne m c l = some i) : i ∈ l ∧ i.mobile = m ∧ i.cashierCode = c := by
  have hmem := List.mem_of_find?_eq_some h
  have hp := List.find?_some h
  simp only [decide_eq_true_eq] at hp
  exact ⟨hmem, hp⟩

theorem ciFindOne_none (m c : String) (l : List CashIntent)
    (h : ∀ i ∈ l, i.mobile ≠ m) : ciFindOne m c l = none := by
  rw [ciFindOne, List.find?_eq_none]
  intro i hi
  simp only [decide_eq_true_eq, not_and]
  intro him
  exact absurd him (h i hi)

theorem histUpdateOne_id_of_no_match (m c : String) (now : Nat) (l : List HistoryRow)
    (h : ∀ r ∈ l, ¬ histMatches m c r) : histUpdateOne m c now l = l := by
  induction l with
  | nil => rfl
  | cons a rest ih =>
    unfold histUpdateOne
    rw [if_neg (h a (List.mem_cons_self a rest))]
    rw [ih (fun r hr => h r (List.mem_cons_of_mem a hr))]

theorem histUpdateOne_first (m c : String) (now : Nat) (l1 : List HistoryRow)
    (row : HistoryRow) (l2 : List HistoryRow)
    (h1 : ∀ r ∈ l1, ¬ histMatches m c r) (h2 : histMatches m c row) :
    histUpdateOne m c now (l1 ++ row :: l2)
      = l1 ++ { row with verified := true, verifiedAt := some now } :: l2 := by
  induction l1 with
  | nil =>
    simp only [List.nil_append]
    unfold histUpdateOne
    rw [if_pos h2]
  | cons a t ih =>
    simp only [List.cons_append]
    unfold histUpdateOne
    rw [if_neg (h1 a (List.mem_cons_self a t))]
    rw [ih (fun r hr => h1 r (List.mem_cons_of_mem a hr))]

theorem histUpdateOne_length (m c : String) (now : Nat) (l : List HistoryRow) :
    (histUpdateOne m c now l).length = l.length := by
  induction l with
  | nil => rfl
  | cons a rest ih =>
    unfold histUpdateOne
    split
    · simp
    · simp [ih]

theorem zip_self_verified_countP (l : List HistoryRow) :
    (l.zip l).countP (fun p => decide (p.1.verified ≠ p.2.verified)) = 0 := by
  induction l with
  | nil => rfl
  | cons a rest ih =>
    rw [List.zip_cons_cons, List.countP_cons, ih]
    simp

theorem histUpdateOne_flip_countP (m c : String) (now : Nat) (l : List HistoryRow) :
    (l.zip (histUpdateOne m c now l)).countP
      (fun p => decide (p.1.verified ≠ p.2.verified)) ≤ 1 := by
  induction l with
  | nil => simp [histUpdateOne]
  | cons r rest ih =>
    unfold histUpdateOne
    split
    · rw [List.zip_cons_cons, List.countP_cons, zip_self_verified_countP]
      split <;> simp
    · rw [List.zip_cons_cons, List.countP_cons]
      have hr : (decide (((r, r).1.verified ≠ (r, r).2.verified) : Prop)) = false := by simp
      rw [hr]
      simpa using ih

/-! Branch characterizations of the handlers -/

theorem sTruthy_some_of_ne (s : String) (h : s ≠ "") : sTruthy (some s) = true := by
  simp [sTruthy, h]

theorem jTruthy_jstr_of_ne (s : String) (h : s ≠ "") : jTruthy (some (JVal.jstr s)) = true := by
  simp [jTruthy, h]

theorem postCashIntent_run_ok (name mobile code : String) (now : Nat) (s : Store)
    (hname : name ≠ "") (hmob : mobile ≠ "") :
    postCashIntent (some name) (some mobile) code now false false s =
      ({ status := 200, success := true, message := none, cashierCode := some code },
       { s with
           intents := ciUpsert mobile (newIntent name mobile code now) s.intents,
           history := s.history ++ [newHistoryRow code mobile now] }) := by
  unfold postCashIntent
  simp [sTruthy, hname, hmob]

theorem postCashIntent_success_inv (name mobile : Option String) (code : String) (now : Nat)
    (fU fC : Bool) (s : Store) (r : HttpResponse) (s' : Store)
    (hrun : postCashIntent name mobile code now fU fC s = (r, s'))
    (hok : r.success = true) :
    sTruthy name = true ∧ sTruthy mobile = true ∧ fU = false ∧ fC = false ∧
    r = { status := 200, success := true, message := none, cashierCode := some code } ∧
    s' = { s with
        intents := (ciUpsert (mobile.getD "")
          (newIntent (name.getD "") (mobile.getD "") code now) s.intents),
        history := s.history ++ [newHistoryRow code (mobile.getD "") now] } := by
  unfold postCashIntent at hrun
  split_ifs at hrun with h1 h2 h3
  · injection hrun with hr hs
    subst hr
    simp at hok
  · injection hrun with hr hs
    subst hr
    simp at hok
  · injection hrun with hr hs
    subst hr
    simp at hok
  · injection hrun with hr hs
    subst hr
    subst hs
    simp only [Bool.not_eq_true] at h2 h3
    simp only [Bool.or_eq_true, Bool.not_eq_true'] at h1
    push_neg at h1
    exact ⟨Bool.eq_true_of_not_eq_false h1.1, Bool.eq_true_of_not_eq_false h1.2,
      h2, h3, rfl, rfl⟩

theorem postVerify_run_ok (m : String) (code : JVal) (now : Nat) (s : Store)
    (intent : CashIntent)
    (hm : sTruthy (some m) = true) (hc : jTruthy (some code) = true)
    (hfind : ciFindOne m (jToString code) s.intents = some intent)
    (hexp : ¬ now > intent.expiresAt) :
    postVerifyCashierCode (some m) (some code) now false false false false s =
      ({ status := 200, success := true, message := some "✅ Code verified",
         cashierCode := none },
       { s with intents := ciDeleteOne m s.intents,
                history := histUpdateOne m (jToString code) now s.history }) := by
  unfold postVerifyCashierCode
  simp [hm, hc, hfind, hexp]

theorem postVerify_run_expired (m : String) (code : JVal) (now : Nat) (s : Store)
    (intent : CashIntent)
    (hm : sTruthy (some m) = true) (hc : jTruthy (some code) = true)
    (hfind : ciFindOne m (jToString code) s.intents = some intent)
    (hexp : now > intent.expiresAt) :
    postVerifyCashierCode (some m) (some code) now false false false false s =
      ({ status := 401, success := false, message := some "❌ Code expired",
         cashierCode := none },
       { s with intents := ciDeleteOne m s.intents }) := by
  unfold postVerifyCashierCode
  simp [hm, hc, hfind, hexp]

theorem postVerify_run_invalid (m : String) (code : JVal) (now : Nat) (s : Store)
    (hm : sTruthy (some m) = true) (hc : jTruthy (some code) = true)
    (hnone : ciFindOne m (jToString code) s.intents = none) :
    postVerifyCashierCode (some m) (some code) now false false false false s =
      ({ status := 401, success := false, message := some "❌ Invalid code",
         cashierCode := none }, s) := by
  unfold postVerifyCashierCode
  simp [hm, hc, hnone]

theorem postVerify_success_inv (mobile : Option String) (code : Option JVal) (now : Nat)
    (f1 f2 f3 f4 : Bool) (s : Store) (r : HttpResponse) (s' : Store)
    (hrun : postVerifyCashierCode mobile code now f1 f2 f3 f4 s = (r, s'))
    (hok : r.success = true) :
    ∃ intent,
      sTruthy mobile = true ∧ jTruthy code = true ∧
      ciFindOne (mobile.getD "") (jToString (code.getD (JVal.jstr ""))) s.intents
        = some intent ∧
      ¬ now > intent.expiresAt ∧
      r = { status := 200, success := true, message := some "✅ Code verified",
            cashierCode := none } ∧
      s' = { s with
          intents := ciDeleteOne (mobile.getD "") s.intents,
          history := (histUpdateOne (mobile.getD "")
            (jToString (code.getD (JVal.jstr ""))) now s.history) } := by
  unfold postVerifyCashierCode at hrun
  split at hrun
  · injection hrun with hr hs
    subst hr
    simp at hok
  · split at hrun
    · injection hrun with hr hs
      subst hr
      simp at hok
    · rename_i hguard hfail
      split at hrun
      · injection hrun with hr hs
        subst hr
        simp at hok
      · rename_i intent hfind
        split_ifs at hrun with hexp hdel hdel2 hupd
        · injection hrun with hr hs
          subst hr
          simp at hok
        · injection hrun with hr hs
          subst hr
          simp at hok
        · injection hrun with hr hs
          subst hr
          simp at hok
        · injection hrun with hr hs
          subst hr
          simp at hok
        · injection hrun with hr hs
          subst hr
          subst hs
          simp only [Bool.or_eq_true, Bool.not_eq_true'] at hguard
          push_neg at hguard
          exact ⟨intent, Bool.eq_true_of_not_eq_false hguard.1,
            Bool.eq_true_of_not_eq_false hguard.2, hfind, hexp, rfl, rfl⟩

/-! Preservation of the one-intent-per-mobile invariant -/

theorem intentKeyUnique_postCashIntent (name mobile : Option String) (code : String)
    (now : Nat) (fU fC : Bool) (s : Store) (h : IntentKeyUnique s.intents) :
    IntentKeyUnique (postCashIntent name mobile code now fU fC s).2.intents := by
  unfold postCashIntent
  split_ifs
  · exact h
  · exact h
  · exact intentKeyUnique_upsert (mobile.getD "")
      (newIntent (name.getD "") (mobile.getD "") code now) rfl s.intents h
  · exact intentKeyUnique_upsert (mobile.getD "")
      (newIntent (name.getD "") (mobile.getD "") code now) rfl s.intents h

theorem intentKeyUnique_postVerify (mobile : Option String) (code : Option JVal)
    (now : Nat) (f1 f2 f3 f4 : Bool) (s : Store) (h : IntentKeyUnique s.intents) :
    IntentKeyUnique (postVerifyCashierCode mobile code now f1 f2 f3 f4 s).2.intents := by
  unfold postVerifyCashierCode
  repeat' split
  all_goals first
    | exact h
    | exact intentKeyUnique_deleteOne _ _ h

theorem intentKeyUnique_postPurchase (name mobile : Option String)
    (products : Option (List String)) (paymentMethod cashierCode : Option String)
    (fD fS : Bool) (s : Store) (h : IntentKeyUnique s.intents) :
    IntentKeyUnique (postPurchase name mobile products paymentMethod cashierCode fD fS s).2.intents := by
  unfold postPurchase
  repeat' split
  all_goals first
    | exact h
    | exact intentKeyUnique_deleteOne _ _ h

theorem postVerify_run_invalid_opt (mobile : Option String) (code : Option JVal)
    (now : Nat) (s : Store)
    (hm : sTruthy mobile = true) (hc : jTruthy code = true)
    (hnone : ciFindOne (mobile.getD "") (jToString (code.getD (JVal.jstr ""))) s.intents
      = none) :
    postVerifyCashierCode mobile code now false false false false s =
      ({ status := 401, success := false, message := some "❌ Invalid code",
         cashierCode := none }, s) := by
  unfold postVerifyCashierCode
  simp [hm, hc, hnone]

theorem postPurchase_run_cash (name m : String) (products : List String)
    (cashierCode : Option String) (s : Store) (hname : name ≠ "") (hm : m ≠ "") :
    postPurchase (some name) (some m) (some products) (some "cash") cashierCode
        false false s =
      ({ status := 200, success := true, message := some "Purchase saved",
         cashierCode := none },
       { s with
           intents := ciDeleteOne m s.intents,
           purchases := (s.purchases ++
             [{ name := name, mobile := m, products := products,
                paymentMethod := "cash", cashierCode := cashierCode }]) }) := by
  unfold postPurchase
  simp [sTruthy, hname, hm]

theorem postPurchase_run_cash_savefail (name m : String) (products : List String)
    (cashierCode : Option String) (s : Store) (hname : name ≠ "") (hm : m ≠ "") :
    postPurchase (some name) (some m) (some products) (some "cash") cashierCode
        false true s =
      ({ status := 500, success := false, message := some "Error saving purchase",
         cashierCode := none },
       { s with intents := ciDeleteOne m s.intents }) := by
  unfold postPurchase
  simp [sTruthy, hname, hm]

theorem postCashIntent_run_createfail (name mobile code : String) (now : Nat) (s : Store)
    (hname : name ≠ "") (hmob : mobile ≠ "") :
    postCashIntent (some name) (some mobile) code now false true s =
      ({ status := 500, success := false, message := some "Error saving cash intent",
         cashierCode := none },
       { s with intents := ciUpsert mobile (newIntent name mobile code now) s.intents }) := by
  unfold postCashIntent
  simp [sTruthy, hname, hmob]

/-! The claims -/

/-- C1 (counterexample): with two unverified `CashierCodeHistory` rows for the
same mobile+code (created at times 0 and 1), a successful verification at time
5 returns HTTP 200 but flips the OLDEST matching row; the most recent matching
row (creation time 1) is left with `verified = false`, refuting the claim that
the most recent matching row is updated. -/
theorem verifyCode_most_recent_counterexample :
    (postVerifyCashierCode (some "9990001111") (some (JVal.jstr "111111")) 5
        false false false false
        (Store.mk [newIntent "Alice" "9990001111" "111111" 0]
          [newHistoryRow "111111" "9990001111" 0, newHistoryRow "111111" "9990001111" 1]
          [])).1.status = 200
    ∧ (postVerifyCashierCode (some "9990001111") (some (JVal.jstr "111111")) 5
        false false false false
        (Store.mk [newIntent "Alice" "9990001111" "111111" 0]
          [newHistoryRow "111111" "9990001111" 0, newHistoryRow "111111" "9990001111" 1]
          [])).2.history =
        [{ cashierCode := "111111", mobile := "9990001111", verified := true,
           verifiedAt := some 5, createdAt := 0 },
         newHistoryRow "111111" "9990001111" 1]
    ∧ (newHistoryRow "111111" "9990001111" 1).verified = false := by
  decide

/-- C1 (amended): if `VerifyCode(m, c)` finds a matching unexpired
`CashIntent`, the operation deletes that `CashIntent` (single-use consumption),
updates the FIRST matching `CashierCodeHistory` row in store order (the oldest)
where `verified` is still false to `verified = true` with a verification
timestamp, and returns HTTP 200 as verified. -/
theorem verifyCode_success_consumes_and_updates_first
    (m : String) (code : JVal) (now : Nat) (s : Store) (intent : CashIntent)
    (hinv : IntentKeyUnique s.intents)
    (hm : sTruthy (some m) = true) (hc : jTruthy (some code) = true)
    (hfind : ciFindOne m (jToString code) s.intents = some intent)
    (hexp : ¬ now > intent.expiresAt)
    (r : HttpResponse) (s' : Store)
    (hrun : postVerifyCashierCode (some m) (some code) now
      false false false false s = (r, s')) :
    r.status = 200 ∧ r.success = true ∧ r.message = some "✅ Code verified"
    ∧ (∀ i ∈ s'.intents, i.mobile ≠ m)
    ∧ intent ∉ s'.intents
    ∧ s'.history = histUpdateOne m (jToString code) now s.history
    ∧ (∀ l1 row l2, s.history = l1 ++ row :: l2 →
        (∀ x ∈ l1, ¬ histMatches m (jToString code) x) →
        histMatches m (jToString code) row →
        s'.history = l1 ++ { row with verified := true, verifiedAt := some now } :: l2)
    ∧ s'.purchases = s.purchases := by
  rw [postVerify_run_ok m code now s intent hm hc hfind hexp] at hrun
  injection hrun with hr hs
  subst hr
  subst hs
  have hne := ciDeleteOne_mobile_ne m s.intents hinv
  refine ⟨rfl, rfl, rfl, hne, ?_, rfl, ?_, rfl⟩
  · intro hmem
    exact hne intent hmem (ciFindOne_some m (jToString code) s.intents intent hfind).2.1
  · intro l1 row l2 hsplit h1 h2
    show histUpdateOne m (jToString code) now s.history = _
    rw [hsplit]
    exact histUpdateOne_first m (jToString code) now l1 row l2 h1 h2

/-- Witness for the amended C1 at a concrete input. -/
theorem verifyCode_success_consumes_and_updates_first_witness :
    IntentKeyUnique (Store.mk [newIntent "Alice" "9990001111" "482913" 0]
        [newHistoryRow "482913" "9990001111" 0] []).intents
    ∧ sTruthy (some "9990001111") = true
    ∧ jTruthy (some (JVal.jstr "482913")) = true
    ∧ ciFindOne "9990001111" (jToString (JVal.jstr "482913"))
        (Store.mk [newIntent "Alice" "9990001111" "482913" 0]
          [newHistoryRow "482913" "9990001111" 0] []).intents
        = some (newIntent "Alice" "9990001111" "482913" 0)
    ∧ ¬ 5 > (newIntent "Alice" "9990001111" "482913" 0).expiresAt
    ∧ (postVerifyCashierCode (some "9990001111") (some (JVal.jstr "482913")) 5
        false false false false
        (Store.mk [newIntent "Alice" "9990001111" "482913" 0]
          [newHistoryRow "482913" "9990001111" 0] [])).1.status = 200 := by
  refine ⟨by decide, by decide, by decide, by decide, by decide, ?_⟩
  exact (verifyCode_success_consumes_and_updates_first "9990001111" (JVal.jstr "482913")
    5 (Store.mk [newIntent "Alice" "9990001111" "482913" 0]
      [newHistoryRow "482913" "9990001111" 0] [])
    (newIntent "Alice" "9990001111" "482913" 0)
    (by decide) (by decide) (by decide) (by decide) (by decide) _ _ rfl).1

/-- C2: after a successful `RequestIntent(name, m)`, exactly one `CashIntent`
exists for `m`, created at the request time with expiry equal to creation time
plus 15 minutes; and every operation of the flow preserves the invariant that
at most one live `CashIntent` exists per mobile. -/
theorem requestIntent_unique_intent_and_expiry
    (name mobile : Option String) (code : String) (now : Nat) (fU fC : Bool)
    (s : Store) (r : HttpResponse) (s' : Store)
    (hinv : IntentKeyUnique s.intents)
    (hrun : postCashIntent name mobile code now fU fC s = (r, s'))
    (hok : r.success = true) :
    (s'.intents.countP (fun i => decide (i.mobile = mobile.getD "")) = 1
      ∧ (∀ i ∈ s'.intents, i.mobile = mobile.getD "" →
           i.date = now ∧ i.expiresAt = i.date + 15 * 60 * 1000)
      ∧ IntentKeyUnique s'.intents)
    ∧ (∀ (n m : Option String) (c : String) (t : Nat) (f1 f2 : Bool) (σ : Store),
        IntentKeyUnique σ.intents →
        IntentKeyUnique (postCashIntent n m c t f1 f2 σ).2.intents)
    ∧ (∀ (m : Option String) (c : Option JVal) (t : Nat) (f1 f2 f3 f4 : Bool)
        (σ : Store),
        IntentKeyUnique σ.intents →
        IntentKeyUnique (postVerifyCashierCode m c t f1 f2 f3 f4 σ).2.intents)
    ∧ (∀ (n m : Option String) (pr : Option (List String)) (pm cc : Option String)
        (f1 f2 : Bool) (σ : Store),
        IntentKeyUnique σ.intents →
        IntentKeyUnique (postPurchase n m pr pm cc f1 f2 σ).2.intents) := by
  obtain ⟨hn, hm, hfU, hfC, hr, hs⟩ :=
    postCashIntent_success_inv name mobile code now fU fC s r s' hrun hok
  subst hs
  refine ⟨⟨?_, ?_, ?_⟩, ?_, ?_, ?_⟩
  · exact ciUpsert_countP (mobile.getD "")
      (newIntent (name.getD "") (mobile.getD "") code now) rfl s.intents hinv
  · intro i hi him
    have hkey := ciUpsert_mem_key (mobile.getD "")
      (newIntent (name.getD "") (mobile.getD "") code now) rfl s.intents hinv i hi him
    subst hkey
    exact ⟨rfl, rfl⟩
  · exact intentKeyUnique_upsert (mobile.getD "")
      (newIntent (name.getD "") (mobile.getD "") code now) rfl s.intents hinv
  · exact fun n m c t f1 f2 σ hσ => intentKeyUnique_postCashIntent n m c t f1 f2 σ hσ
  · exact fun m c t f1 f2 f3 f4 σ hσ =>
      intentKeyUnique_postVerify m c t f1 f2 f3 f4 σ hσ
  · exact fun n m pr pm cc f1 f2 σ hσ =>
      intentKeyUnique_postPurchase n m pr pm cc f1 f2 σ hσ

/-- Witness for C2 at a concrete input. -/
theorem requestIntent_unique_intent_and_expiry_witness :
    IntentKeyUnique (Store.mk [] [] []).intents
    ∧ (postCashIntent (some "Alice") (some "9990001111") "482913" 0 false false
        (Store.mk [] [] [])).1.success = true
    ∧ ((postCashIntent (some "Alice") (some "9990001111") "482913" 0 false false
        (Store.mk [] [] [])).2.intents.countP
          (fun i => decide (i.mobile = (some "9990001111" : Option String).getD ""))
        = 1) := by
  refine ⟨by decide, by decide, ?_⟩
  exact (requestIntent_unique_intent_and_expiry (some "Alice") (some "9990001111")
    "482913" 0 false false (Store.mk [] [] []) _ _ (by decide) rfl (by decide)).1.1

/-- C3: if `VerifyCode(m, c)` finds a matching `CashIntent` whose expiry has
passed, the operation deletes the `CashIntent` for `m` and rejects with HTTP
401 "code expired", leaving history and purchases untouched. -/
theorem verifyCode_expired_deletes_and_rejects
    (m : String) (code : JVal) (now : Nat) (s : Store) (intent : CashIntent)
    (hinv : IntentKeyUnique s.intents)
    (hm : sTruthy (some m) = true) (hc : jTruthy (some code) = true)
    (hfind : ciFindOne m (jToString code) s.intents = some intent)
    (hexp : now > intent.expiresAt)
    (r : HttpResponse) (s' : Store)
    (hrun : postVerifyCashierCode (some m) (some code) now
      false false false false s = (r, s')) :
    r.status = 401 ∧ r.success = false ∧ r.message = some "❌ Code expired"
    ∧ s'.intents = ciDeleteOne m s.intents
    ∧ (∀ i ∈ s'.intents, i.mobile ≠ m)
    ∧ s'.history = s.history ∧ s'.purchases = s.purchases := by
  rw [postVerify_run_expired m code now s intent hm hc hfind hexp] at hrun
  injection hrun with hr hs
  subst hr
  subst hs
  exact ⟨rfl, rfl, rfl, rfl, ciDeleteOne_mobile_ne m s.intents hinv, rfl, rfl⟩

/-- Witness for C3 at a concrete input: the intent expires at 900000 ms and the
verification happens at 900001 ms. -/
theorem verifyCode_expired_deletes_and_rejects_witness :
    IntentKeyUnique (Store.mk [newIntent "Alice" "9990001111" "482913" 0] [] []).intents
    ∧ sTruthy (some "9990001111") = true
    ∧ jTruthy (some (JVal.jstr "482913")) = true
    ∧ ciFindOne "9990001111" (jToString (JVal.jstr "482913"))
        (Store.mk [newIntent "Alice" "9990001111" "482913" 0] [] []).intents
        = some (newIntent "Alice" "9990001111" "482913" 0)
    ∧ 900001 > (newIntent "Alice" "9990001111" "482913" 0).expiresAt
    ∧ (postVerifyCashierCode (some "9990001111") (some (JVal.jstr "482913")) 900001
        false false false false
        (Store.mk [newIntent "Alice" "9990001111" "482913" 0] [] [])).1.status = 401 := by
  refine ⟨by decide, by decide, by decide, by decide, by decide, ?_⟩
  exact (verifyCode_expired_deletes_and_rejects "9990001111" (JVal.jstr "482913") 900001
    (Store.mk [newIntent "Alice" "9990001111" "482913" 0] [] [])
    (newIntent "Alice" "9990001111" "482913" 0)
    (by decide) (by decide) (by decide) (by decide) (by decide) _ _ rfl).1

/-- C4: if no `CashIntent` matches the pair (m, c), `VerifyCode(m, c)` rejects
with HTTP 401 "invalid code" and the store is completely unchanged. -/
theorem verifyCode_invalid_leaves_store
    (m : String) (code : JVal) (now : Nat) (s : Store)
    (hm : sTruthy (some m) = true) (hc : jTruthy (some code) = true)
    (hnone : ciFindOne m (jToString code) s.intents = none)
    (r : HttpResponse) (s' : Store)
    (hrun : postVerifyCashierCode (some m) (some code) now
      false false false false s = (r, s')) :
    r.status = 401 ∧ r.success = false ∧ r.message = some "❌ Invalid code"
    ∧ s' = s := by
  rw [postVerify_run_invalid m code now s hm hc hnone] at hrun
  injection hrun with hr hs
  subst hr
  subst hs
  exact ⟨rfl, rfl, rfl, rfl⟩

/-- Witness for C4 at a concrete input: an intent for the mobile exists but
with a different code. -/
theorem verifyCode_invalid_leaves_store_witness :
    sTruthy (some "9990001111") = true
    ∧ jTruthy (some (JVal.jstr "999999")) = true
    ∧ ciFindOne "9990001111" (jToString (JVal.jstr "999999"))
        (Store.mk [newIntent "Alice" "9990001111" "482913" 0] [] []).intents = none
    ∧ (postVerifyCashierCode (some "9990001111") (some (JVal.jstr "999999")) 5
        false false false false
        (Store.mk [newIntent "Alice" "9990001111" "482913" 0] [] [])).2 =
      Store.mk [newIntent "Alice" "9990001111" "482913" 0] [] [] := by
  refine ⟨by decide, by decide, by decide, ?_⟩
  exact (verifyCode_invalid_leaves_store "9990001111" (JVal.jstr "999999") 5
    (Store.mk [newIntent "Alice" "9990001111" "482913" 0] [] [])
    (by decide) (by decide) (by decide) _ _ rfl).2.2.2

/-- C5: after a successful `VerifyCode(m, c)`, an immediately repeated
`VerifyCode(m, c)` on the resulting store fails with HTTP 401 "invalid code"
and changes nothing, the first call having deleted the `CashIntent` for `m`. -/
theorem verifyCode_second_call_invalid
    (mobile : Option String) (code : Option JVal) (now now2 : Nat) (s : Store)
    (hinv : IntentKeyUnique s.intents)
    (r1 : HttpResponse) (s1 : Store)
    (h1 : postVerifyCashierCode mobile code now false false false false s = (r1, s1))
    (hok : r1.success = true)
    (r2 : HttpResponse) (s2 : Store)
    (h2 : postVerifyCashierCode mobile code now2 false false false false s1 = (r2, s2)) :
    r2.status = 401 ∧ r2.success = false ∧ r2.message = some "❌ Invalid code"
    ∧ s2 = s1 := by
  obtain ⟨intent, hm, hc, hfind, hexp, hr, hs⟩ :=
    postVerify_success_inv mobile code now false false false false s r1 s1 h1 hok
  subst hs
  have hnone : ciFindOne (mobile.getD "") (jToString (code.getD (JVal.jstr "")))
      (ciDeleteOne (mobile.getD "") s.intents) = none :=
    ciFindOne_none _ _ _ (ciDeleteOne_mobile_ne _ s.intents hinv)
  rw [postVerify_run_invalid_opt mobile code now2 _ hm hc hnone] at h2
  injection h2 with hr2 hs2
  subst hr2
  subst hs2
  exact ⟨rfl, rfl, rfl, rfl⟩

/-- Witness for C5: the spec scenario, with the second call made on the store
the first call produced. -/
theorem verifyCode_second_call_invalid_witness :
    IntentKeyUnique (Store.mk [newIntent "Alice" "9990001111" "482913" 0]
        [newHistoryRow "482913" "9990001111" 0] []).intents
    ∧ (postVerifyCashierCode (some "9990001111") (some (JVal.jstr "482913")) 5
        false false false false
        (Store.mk [newIntent "Alice" "9990001111" "482913" 0]
          [newHistoryRow "482913" "9990001111" 0] [])).1.success = true
    ∧ (postVerifyCashierCode (some "9990001111") (some (JVal.jstr "482913")) 6
        false false false false
        (postVerifyCashierCode (some "9990001111") (some (JVal.jstr "482913")) 5
          false false false false
          (Store.mk [newIntent "Alice" "9990001111" "482913" 0]
            [newHistoryRow "482913" "9990001111" 0] [])).2).1.status = 401 := by
  refine ⟨by decide, by decide, ?_⟩
  exact (verifyCode_second_call_invalid (some "9990001111") (some (JVal.jstr "482913"))
    5 6 (Store.mk [newIntent "Alice" "9990001111" "482913" 0]
      [newHistoryRow "482913" "9990001111" 0] [])
    (by decide) _ _ rfl (by decide) _ _ rfl).1

/-- C6: saving a purchase with payment method cash deletes any `CashIntent`
for the mobile, independent of the verification flow (history untouched, and
no verification precondition is required). -/
theorem purchase_cash_clears_intent
    (name m : String) (products : List String) (cashierCode : Option String)
    (s : Store) (hinv : IntentKeyUnique s.intents)
    (hname : name ≠ "") (hm : m ≠ "")
    (r : HttpResponse) (s' : Store)
    (hrun : postPurchase (some name) (some m) (some products) (some "cash")
      cashierCode false false s = (r, s')) :
    r.status = 200 ∧ r.success = true
    ∧ s'.intents = ciDeleteOne m s.intents
    ∧ (∀ i ∈ s'.intents, i.mobile ≠ m)
    ∧ s'.history = s.history := by
  rw [postPurchase_run_cash name m products cashierCode s hname hm] at hrun
  injection hrun with hr hs
  subst hr
  subst hs
  exact ⟨rfl, rfl, rfl, ciDeleteOne_mobile_ne m s.intents hinv, rfl⟩

/-- Witness for C6: a pending intent is cleared by a cash purchase although
`VerifyCode` was never called (the history is empty). -/
theorem purchase_cash_clears_intent_witness :
    IntentKeyUnique (Store.mk [newIntent "Alice" "9990001111" "482913" 0] [] []).intents
    ∧ "Alice" ≠ ""
    ∧ "9990001111" ≠ ""
    ∧ (∀ i ∈ (postPurchase (some "Alice") (some "9990001111") (some ["apple"])
        (some "cash") (some "482913") false false
        (Store.mk [newIntent "Alice" "9990001111" "482913" 0] [] [])).2.intents,
        i.mobile ≠ "9990001111") := by
  refine ⟨by decide, by decide, by decide, ?_⟩
  exact (purchase_cash_clears_intent "Alice" "9990001111" ["apple"] (some "482913")
    (Store.mk [newIntent "Alice" "9990001111" "482913" 0] [] [])
    (by decide) (by decide) (by decide) _ _ rfl).2.2.2.1

/-- C7: a request to `POST /cash-intent` whose name or mobile is missing, and
a request to `POST /verify-cashier-code` whose mobile or cashierCode is
missing, each get HTTP 400 with `success = false` and leave the store
unchanged, whatever the store and failure flags. -/
theorem missing_fields_reject_400
    (name mobile : Option String) (code : String) (now : Nat) (fU fC : Bool) (s : Store)
    (mobile2 : Option String) (code2 : Option JVal) (now2 : Nat)
    (f1 f2 f3 f4 : Bool) (t : Store)
    (hmiss1 : ¬ (sTruthy name = true ∧ sTruthy mobile = true))
    (hmiss2 : ¬ (sTruthy mobile2 = true ∧ jTruthy code2 = true)) :
    postCashIntent name mobile code now fU fC s =
      ({ status := 400, success := false, message := some "Missing fields",
         cashierCode := none }, s)
    ∧ postVerifyCashierCode mobile2 code2 now2 f1 f2 f3 f4 t =
      ({ status := 400, success := false, message := some "Missing mobile or code",
         cashierCode := none }, t) := by
  constructor
  · have hguard : (!sTruthy name || !sTruthy mobile) = true := by
      rcases Bool.eq_false_or_eq_true (sTruthy name) with ht | hf
      · rcases Bool.eq_false_or_eq_true (sTruthy mobile) with ht2 | hf2
        · exact absurd ⟨ht, ht2⟩ hmiss1
        · simp [hf2]
      · simp [hf]
    unfold postCashIntent
    simp [hguard]
  · have hguard : (!sTruthy mobile2 || !jTruthy code2) = true := by
      rcases Bool.eq_false_or_eq_true (sTruthy mobile2) with ht | hf
      · rcases Bool.eq_false_or_eq_true (jTruthy code2) with ht2 | hf2
        · exact absurd ⟨ht, ht2⟩ hmiss2
        · simp [hf2]
      · simp [hf]
    unfold postVerifyCashierCode
    simp [hguard]

/-- Witness for C7: a `/cash-intent` request missing the name and a
`/verify-cashier-code` request missing the code. -/
theorem missing_fields_reject_400_witness :
    postCashIntent none (some "9990001111") "482913" 0 false false
      (Store.mk [] [] []) =
      ({ status := 400, success := false, message := some "Missing fields",
         cashierCode := none }, Store.mk [] [] [])
    ∧ postVerifyCashierCode (some "9990001111") none 0 false false false false
      (Store.mk [] [] []) =
      ({ status := 400, success := false, message := some "Missing mobile or code",
         cashierCode := none }, Store.mk [] [] []) :=
  missing_fields_reject_400 none (some "9990001111") "482913" 0 false false
    (Store.mk [] [] []) (some "9990001111") none 0 false false false false
    (Store.mk [] [] []) (by decide) (by decide)

/-- C8: on the `VerifyCode` success path the history update is a
single-document update: the history keeps its length, at most one row has its
verified flag changed, and when several unverified rows match mobile+code the
one flipped is the first in store order (the oldest); with no matching row the
history is unchanged. -/
theorem verifyCode_history_update_single_first
    (m : String) (code : JVal) (now : Nat) (s : Store) (intent : CashIntent)
    (hm : sTruthy (some m) = true) (hc : jTruthy (some code) = true)
    (hfind : ciFindOne m (jToString code) s.intents = some intent)
    (hexp : ¬ now > intent.expiresAt)
    (r : HttpResponse) (s' : Store)
    (hrun : postVerifyCashierCode (some m) (some code) now
      false false false false s = (r, s')) :
    r.success = true
    ∧ s'.history.length = s.history.length
    ∧ ((s.history.zip s'.history).countP
        (fun p => decide (p.1.verified ≠ p.2.verified)) ≤ 1)
    ∧ (∀ l1 row l2, s.history = l1 ++ row :: l2 →
        (∀ x ∈ l1, ¬ histMatches m (jToString code) x) →
        histMatches m (jToString code) row →
        s'.history = l1 ++ { row with verified := true, verifiedAt := some now } :: l2)
    ∧ ((∀ x ∈ s.history, ¬ histMatches m (jToString code) x) →
        s'.history = s.history) := by
  rw [postVerify_run_ok m code now s intent hm hc hfind hexp] at hrun
  injection hrun with hr hs
  subst hr
  subst hs
  refine ⟨rfl, ?_, ?_, ?_, ?_⟩
  · exact histUpdateOne_length m (jToString code) now s.history
  · exact histUpdateOne_flip_countP m (jToString code) now s.history
  · intro l1 row l2 hsplit h1 h2
    show histUpdateOne m (jToString code) now s.history = _
    rw [hsplit]
    exact histUpdateOne_first m (jToString code) now l1 row l2 h1 h2
  · exact fun hnm => histUpdateOne_id_of_no_match m (jToString code) now s.history hnm

/-- Witness for C8: two unverified matching rows exist; the run keeps the
history length at two. -/
theorem verifyCode_history_update_single_first_witness :
    sTruthy (some "9990001111") = true
    ∧ jTruthy (some (JVal.jstr "111111")) = true
    ∧ ciFindOne "9990001111" (jToString (JVal.jstr "111111"))
        (Store.mk [newIntent "Alice" "9990001111" "111111" 0]
          [newHistoryRow "111111" "9990001111" 0, newHistoryRow "111111" "9990001111" 1]
          []).intents = some (newIntent "Alice" "9990001111" "111111" 0)
    ∧ ¬ 5 > (newIntent "Alice" "9990001111" "111111" 0).expiresAt
    ∧ (postVerifyCashierCode (some "9990001111") (some (JVal.jstr "111111")) 5
        false false false false
        (Store.mk [newIntent "Alice" "9990001111" "111111" 0]
          [newHistoryRow "111111" "9990001111" 0, newHistoryRow "111111" "9990001111" 1]
          [])).2.history.length =
      (Store.mk [newIntent "Alice" "9990001111" "111111" 0]
        [newHistoryRow "111111" "9990001111" 0, newHistoryRow "111111" "9990001111" 1]
        []).history.length := by
  refine ⟨by decide, by decide, by decide, by decide, ?_⟩
  exact (verifyCode_history_update_single_first "9990001111" (JVal.jstr "111111") 5
    (Store.mk [newIntent "Alice" "9990001111" "111111" 0]
      [newHistoryRow "111111" "9990001111" 0, newHistoryRow "111111" "9990001111" 1] [])
    (newIntent "Alice" "9990001111" "111111" 0)
    (by decide) (by decide) (by decide) (by decide) _ _ rfl).2.1

/-- C9: a cash purchase whose save fails is not atomic: the handler deleted the
`CashIntent` before saving, so the HTTP 500 response leaves the intent deleted,
no purchase saved, and the store changed despite the error. -/
theorem purchase_cash_save_error_not_atomic
    (name m : String) (products : List String) (cashierCode : Option String)
    (s : Store) (hinv : IntentKeyUnique s.intents)
    (hname : name ≠ "") (hm : m ≠ "")
    (intent : CashIntent) (hintent : intent ∈ s.intents) (him : intent.mobile = m)
    (r : HttpResponse) (s' : Store)
    (hrun : postPurchase (some name) (some m) (some products) (some "cash")
      cashierCode false true s = (r, s')) :
    r.status = 500 ∧ r.success = false
    ∧ s'.intents = ciDeleteOne m s.intents
    ∧ (∀ i ∈ s'.intents, i.mobile ≠ m)
    ∧ s'.purchases = s.purchases
    ∧ s' ≠ s := by
  rw [postPurchase_run_cash_savefail name m products cashierCode s hname hm] at hrun
  injection hrun with hr hs
  subst hr
  subst hs
  have hne := ciDeleteOne_mobile_ne m s.intents hinv
  refine ⟨rfl, rfl, rfl, hne, rfl, ?_⟩
  intro heq
  have hmem : intent ∈ ({ s with intents := ciDeleteOne m s.intents } : Store).intents := by
    rw [heq]
    exact hintent
  exact hne intent hmem him

/-- Witness for C9: the save fails after the intent delete; the 500 run left
the store without the pending intent. -/
theorem purchase_cash_save_error_not_atomic_witness :
    IntentKeyUnique (Store.mk [newIntent "Alice" "9990001111" "482913" 0] [] []).intents
    ∧ "Alice" ≠ "" ∧ "9990001111" ≠ ""
    ∧ newIntent "Alice" "9990001111" "482913" 0
        ∈ (Store.mk [newIntent "Alice" "9990001111" "482913" 0] [] []).intents
    ∧ (newIntent "Alice" "9990001111" "482913" 0).mobile = "9990001111"
    ∧ (postPurchase (some "Alice") (some "9990001111") (some ["apple"]) (some "cash")
        (some "482913") false true
        (Store.mk [newIntent "Alice" "9990001111" "482913" 0] [] [])).2 ≠
      Store.mk [newIntent "Alice" "9990001111" "482913" 0] [] [] := by
  refine ⟨by decide, by decide, by decide, by decide, by decide, ?_⟩
  exact (purchase_cash_save_error_not_atomic "Alice" "9990001111" ["apple"]
    (some "482913") (Store.mk [newIntent "Alice" "9990001111" "482913" 0] [] [])
    (by decide) (by decide) (by decide)
    (newIntent "Alice" "9990001111" "482913" 0) (by decide) (by decide)
    _ _ rfl).2.2.2.2.2

/-- C10: `POST /cash-intent` is not atomic when the history insert fails after
the upsert succeeded: HTTP 500 is returned without the code, yet the new
`CashIntent` carrying that code is stored and no history row was added. -/
theorem requestIntent_history_error_not_atomic
    (name mobile code : String) (now : Nat) (s : Store)
    (hname : name ≠ "") (hmob : mobile ≠ "")
    (r : HttpResponse) (s' : Store)
    (hrun : postCashIntent (some name) (some mobile) code now false true s = (r, s')) :
    r.status = 500 ∧ r.success = false ∧ r.cashierCode = none
    ∧ s'.intents = ciUpsert mobile (newIntent name mobile code now) s.intents
    ∧ newIntent name mobile code now ∈ s'.intents
    ∧ (∃ i ∈ s'.intents, i.mobile = mobile ∧ i.cashierCode = code)
    ∧ s'.history = s.history := by
  rw [postCashIntent_run_createfail name mobile code now s hname hmob] at hrun
  injection hrun with hr hs
  subst hr
  subst hs
  refine ⟨rfl, rfl, rfl, rfl, ciUpsert_self_mem _ _ _, ?_, rfl⟩
  exact ⟨newIntent name mobile code now, ciUpsert_self_mem _ _ _, rfl, rfl⟩

/-- Witness for C10: the history insert fails on an empty store; the intent
with the undelivered code is stored and the history stays empty. -/
theorem requestIntent_history_error_not_atomic_witness :
    "Alice" ≠ "" ∧ "9990001111" ≠ ""
    ∧ (postCashIntent (some "Alice") (some "9990001111") "482913" 0 false true
        (Store.mk [] [] [])).1.status = 500
    ∧ (∃ i ∈ (postCashIntent (some "Alice") (some "9990001111") "482913" 0 false true
        (Store.mk [] [] [])).2.intents,
        i.mobile = "9990001111" ∧ i.cashierCode = "482913") := by
  refine ⟨by decide, by decide, ?_, ?_⟩
  · exact (requestIntent_history_error_not_atomic "Alice" "9990001111" "482913" 0
      (Store.mk [] [] []) (by decide) (by decide) _ _ rfl).1
  · exact (requestIntent_history_error_not_atomic "Alice" "9990001111" "482913" 0
      (Store.mk [] [] []) (by decide) (by decide) _ _ rfl).2.2.2.2.2.1

example :
    postCashIntent (some "Alice") (some "9990001111") "482913" 0 false false
      { intents := [], history := [], purchases := [] } =
    ({ status := 200, success := true, message := none, cashierCode := some "482913" },
     { intents := [newIntent "Alice" "9990001111" "482913" 0],
       history := [newHistoryRow "482913" "9990001111" 0],
       purchases := [] }) := by
  decide

example :
    (postVerifyCashierCode (some "9990001111") (some (JVal.jstr "482913")) 1 false false false false
      { intents := [newIntent "Alice" "9990001111" "482913" 0],
        history := [newHistoryRow "482913" "9990001111" 0],
        purchases := [] }).1.status = 200 := by
  decide

end SmartCart
